import Mathlib

/-!
Shallow embedding of the metric-derivation engine of the stock-analyzer
repository (scripts `analyzer.py` and `rule1_analyzer.py`).

Conventions of the embedding:
* A Python float cell of a pandas statement DataFrame is a `PyCell`:
  it is NaN, +inf, -inf, a finite number (modelled as an exact rational),
  or a non-numeric object (`obj`, e.g. a string that `float()` rejects).
* Python `None` is `Option.none`; a value that may be `None` is an `Option`.
* A Python exception is the `Except Unit` error case; a function that the
  source allows to raise is embedded with result type `Except Unit _`.
  Finite-precision rounding and overflow of IEEE doubles are not modelled:
  finite arithmetic is exact rational arithmetic.
* The fractional power used by `calculate_cagr` is modelled with the real
  power `Real.rpow`, hence that definition lives over `ℝ`.
-/

/-- A value held in a statement table or snapshot field: NaN, an infinity,
a finite number (exact rational), or a non-numeric object. -/
inductive PyCell where
  | nan : PyCell
  | inf : PyCell
  | ninf : PyCell
  | obj : PyCell
  | num : ℚ → PyCell
  deriving DecidableEq, Repr

/-- Pandas `pd.isna`: true exactly on NaN (pandas treats ±inf and objects as not-NA). -/
def PyCell.isna : PyCell → Bool
  | .nan => true
  | _ => false

/-- Python `float(val)`: identity on numeric values, raises `ValueError` on a
non-numeric object. -/
def PyCell.toFloat : PyCell → Except Unit PyCell
  | .obj => .error ()
  | v => .ok v

/-- Python truthiness of a float: `0.0` is falsy, everything else (including
NaN and the infinities) is truthy. -/
def PyCell.truthy : PyCell → Bool
  | .num q => decide (q ≠ 0)
  | _ => true

/-- Python `x > y` on cell values; comparing a non-numeric object raises
`TypeError`; any comparison involving NaN is false. -/
def pyGt : PyCell → PyCell → Except Unit Bool
  | .obj, _ => .error ()
  | _, .obj => .error ()
  | .nan, _ => .ok false
  | _, .nan => .ok false
  | .inf, .inf => .ok false
  | .inf, _ => .ok true
  | .ninf, _ => .ok false
  | .num _, .inf => .ok false
  | .num _, .ninf => .ok true
  | .num a, .num b => .ok (decide (b < a))

/-- Python `x <= y` on cell values; comparing a non-numeric object raises
`TypeError`; any comparison involving NaN is false. -/
def pyLe : PyCell → PyCell → Except Unit Bool
  | .obj, _ => .error ()
  | _, .obj => .error ()
  | .nan, _ => .ok false
  | _, .nan => .ok false
  | .inf, .inf => .ok true
  | .inf, _ => .ok false
  | .ninf, _ => .ok true
  | .num _, .inf => .ok true
  | .num _, .ninf => .ok false
  | .num a, .num b => .ok (decide (a ≤ b))

/-- Python float subtraction with IEEE infinity rules; a non-numeric operand
raises `TypeError`. -/
def pySub : PyCell → PyCell → Except Unit PyCell
  | .obj, _ => .error ()
  | _, .obj => .error ()
  | .nan, _ => .ok .nan
  | _, .nan => .ok .nan
  | .inf, .inf => .ok .nan
  | .inf, _ => .ok .inf
  | .ninf, .ninf => .ok .nan
  | .ninf, _ => .ok .ninf
  | .num _, .inf => .ok .ninf
  | .num _, .ninf => .ok .inf
  | .num a, .num b => .ok (.num (a - b))

/-- Python float division: division by `0.0` raises `ZeroDivisionError`, a
non-numeric operand raises `TypeError`; IEEE rules otherwise. -/
def pyDiv : PyCell → PyCell → Except Unit PyCell
  | .obj, _ => .error ()
  | _, .obj => .error ()
  | a, .num b =>
    if b = 0 then .error ()
    else
      match a with
      | .nan => .ok .nan
      | .inf => .ok (if 0 < b then .inf else .ninf)
      | .ninf => .ok (if 0 < b then .ninf else .inf)
      | .obj => .error ()
      | .num q => .ok (.num (q / b))
  | .nan, _ => .ok .nan
  | _, .nan => .ok .nan
  | .inf, .inf => .ok .nan
  | .inf, .ninf => .ok .nan
  | .ninf, .inf => .ok .nan
  | .ninf, .ninf => .ok .nan
  | .num _, .inf => .ok (.num 0)
  | .num _, .ninf => .ok (.num 0)

/-- Python `cash or 0` applied to an optional cell value: `None` and falsy
values collapse to `0`, truthy values pass through. -/
def pyOr0 : Option PyCell → PyCell
  | none => .num 0
  | some v => if v.truthy then v else .num 0

/-- Helper `safe(val)` from both scripts: `None` for `None`/NaN/±inf, the numeric
value otherwise; a non-numeric object escapes `float(val)` as `ValueError`
(the script's own `except` there only catches the `isna`/`isinf` probes). -/
def safe : Option PyCell → Except Unit (Option ℚ)
  | none => .ok none
  | some .nan => .ok none
  | some .inf => .ok none
  | some .ninf => .ok none
  | some .obj => .error ()
  | some (.num q) => .ok (some q)

/-- A financial-statement DataFrame: a column count and named rows of cells.
pandas frames are rectangular; where that matters a theorem assumes
`Stmt.colInRange`. -/
structure Stmt where
  ncols : ℕ
  rows : List (String × List PyCell)
  deriving DecidableEq, Repr

/-- Pandas `df.empty`: a frame with no rows or no columns is empty. -/
def Stmt.isEmpty (t : Stmt) : Bool :=
  t.rows.isEmpty || t.ncols == 0

/-- Lookup `key in df.index` / `df.loc[key]`: the first row carrying the name. -/
def Stmt.findRow (t : Stmt) (k : String) : Option (List PyCell) :=
  (t.rows.find? fun r => decide (r.1 = k)).map Prod.snd

/-- Every cell of the table is numeric or NaN or an infinity (no objects). -/
def Stmt.noObj (t : Stmt) : Prop :=
  ∀ r ∈ t.rows, ∀ c ∈ r.2, c ≠ PyCell.obj

/-- Every row of the table has a cell at column index `col`. -/
def Stmt.colInRange (t : Stmt) (col : ℕ) : Prop :=
  ∀ r ∈ t.rows, col < r.2.length

instance (t : Stmt) : Decidable t.noObj := by
  unfold Stmt.noObj; infer_instance

instance (t : Stmt) (col : ℕ) : Decidable (t.colInRange col) := by
  unfold Stmt.colInRange; infer_instance

namespace Analyzer

/-- Key loop of `analyzer.py`'s `get_stmt_value`: try each candidate name,
skip NaN values, return the first non-NA value coerced through `float`.
An out-of-range column raises `IndexError`; `float` of a non-numeric
object raises `ValueError`; neither is caught here. -/
def get_stmt_value_go (t : Stmt) (col : ℕ) : List String → Except Unit (Option PyCell)
  | [] => .ok none
  | k :: ks =>
    match t.findRow k with
    | none => get_stmt_value_go t col ks
    | some row =>
      match row[col]? with
      | none => .error ()
      | some v => if v.isna then get_stmt_value_go t col ks else v.toFloat.map some

/-- Function `get_stmt_value` of `analyzer.py` (lines 126-139). -/
def get_stmt_value (df : Option Stmt) (keys : List String) (col : ℕ) :
    Except Unit (Option PyCell) :=
  match df with
  | none => .ok none
  | some t => if t.isEmpty then .ok none else get_stmt_value_go t col keys

end Analyzer

namespace Rule1

/-- Key loop of `rule1_analyzer.py`'s `get_stmt_value`: as the analyzer
version, but the per-key `try` swallows `IndexError`/`KeyError`, so an
out-of-range column just moves on to the next candidate. A `ValueError`
from `float` is not in the caught tuple and still propagates. -/
def get_stmt_value_go (t : Stmt) (col : ℕ) : List String → Except Unit (Option PyCell)
  | [] => .ok none
  | k :: ks =>
    match t.findRow k with
    | none => get_stmt_value_go t col ks
    | some row =>
      match row[col]? with
      | none => get_stmt_value_go t col ks
      | some v => if v.isna then get_stmt_value_go t col ks else v.toFloat.map some

/-- Function `get_stmt_value` of `rule1_analyzer.py` (lines 145-157). -/
def get_stmt_value (df : Option Stmt) (keys : List String) (col : ℕ) :
    Except Unit (Option PyCell) :=
  match df with
  | none => .ok none
  | some t => if t.isEmpty then .ok none else get_stmt_value_go t col keys

/-- Function `calculate_cagr` of `rule1_analyzer.py` (lines 160-169):
`(end/start) ** (1.0/years) - 1.0` guarded by presence and positivity of all
three inputs. The function is total (the source's `try` makes it
exception-free); the power is the real power `Real.rpow`. -/
noncomputable def calculate_cagr (start_val end_val years : Option ℝ) : Option ℝ :=
  match start_val, end_val, years with
  | some sv, some ev, some yv =>
    if yv ≤ 0 then none
    else if sv ≤ 0 ∨ ev ≤ 0 then none
    else some ((ev / sv) ^ (1 / yv) - 1)
  | _, _, _ => none

/-- Function `yoy_growth` of `rule1_analyzer.py` (lines 172-176); field values are
modelled in exact arithmetic as `Option ℚ`. -/
def yoy_growth (current prior : Option ℚ) : Option ℚ :=
  match current, prior with
  | some c, some p => if p = 0 then none else some ((c - p) / |p|)
  | _, _ => none

end Rule1

/-- The spec's Statement-Accessor contract, written from its words (amended
to return a stored infinity): try each candidate name in priority order,
skip names that are missing or whose value at the column is missing (NaN),
return the first remaining value. -/
def lookup_spec_go (t : Stmt) (col : ℕ) : List String → Option PyCell
  | [] => none
  | k :: ks =>
    match t.findRow k with
    | none => lookup_spec_go t col ks
    | some row =>
      match row[col]? with
      | none => lookup_spec_go t col ks
      | some v => if v.isna then lookup_spec_go t col ks else some v

/-- Spec-side lookup: absent table or empty table gives absent. -/
def lookup_spec (df : Option Stmt) (keys : List String) (col : ℕ) : Option PyCell :=
  match df with
  | none => none
  | some t => if t.isEmpty then none else lookup_spec_go t col keys

-- ---------------------------------------------------------------------------
-- ROIC (`analyzer.py` lines 145-181)
-- ---------------------------------------------------------------------------

def ebit_keys : List String := ["EBIT", "Operating Income"]
def ta_keys : List String := ["Total Assets"]
def cl_keys : List String := ["Current Liabilities", "Total Current Liabilities"]
def cash_keys : List String :=
  ["Cash And Cash Equivalents", "Cash Cash Equivalents And Short Term Investments"]

namespace Analyzer

/-- Body of the `try` block of `calculate_roic`: `.error` means an exception
reached the `except` handler, `.ok none` means the guarded fall-through
(missing statements, missing inputs, or non-positive invested capital). -/
def roic_try (finO bsO : Option Stmt) : Except Unit (Option PyCell) :=
  match finO, bsO with
  | some fin, some bs =>
    if fin.isEmpty || bs.isEmpty then .ok none
    else do
      let ebit ← get_stmt_value (some fin) ebit_keys 0
      let ta ← get_stmt_value (some bs) ta_keys 0
      let cl ← get_stmt_value (some bs) cl_keys 0
      let cash ← get_stmt_value (some bs) cash_keys 0
      match ebit, ta, cl with
      | some e, some a, some l => do
        let c := pyOr0 cash
        let d1 ← pySub a l
        let ic ← pySub d1 c
        let pos ← pyGt ic (.num 0)
        if pos then do
          let r ← pyDiv e ic
          pure (some r)
        else pure none
      | _, _, _ => pure none
  | _, _ => .ok none

/-- The whole attempted statement-based ROIC, including the statement fetch
(`ticker_obj.financials` / `balance_sheet` may themselves raise, which the
same `try` catches). -/
def roic_attempt (stmts : Except Unit (Option Stmt × Option Stmt)) :
    Except Unit (Option PyCell) :=
  match stmts with
  | .error u => .error u
  | .ok (finO, bsO) => roic_try finO bsO

/-- Function `calculate_roic` of `analyzer.py` (lines 145-181): the statement-based
value when the attempt produced one, otherwise the sanitized snapshot ROE
(`safe(info.get("returnOnEquity"))`, which sits outside the `try` and can
itself raise on a non-numeric object). -/
def calculate_roic (stmts : Except Unit (Option Stmt × Option Stmt))
    (roe : Option PyCell) : Except Unit (Option PyCell) :=
  match roic_attempt stmts with
  | .ok (some r) => .ok (some r)
  | .ok none => (safe roe).map fun o => o.map PyCell.num
  | .error _ => (safe roe).map fun o => o.map PyCell.num

end Analyzer

-- ---------------------------------------------------------------------------
-- Piotroski F-Score (`analyzer.py` lines 187-299)
-- ---------------------------------------------------------------------------

def ocf_keys : List String :=
  ["Operating Cash Flow", "Total Cash From Operating Activities"]
def ni_keys : List String := ["Net Income"]
def debt_keys : List String :=
  ["Long Term Debt", "Long Term Debt And Capital Lease Obligation"]
def ca_keys : List String := ["Current Assets", "Total Current Assets"]
def sh_keys : List String := ["Share Issued", "Ordinary Shares Number"]
def gp_keys : List String := ["Gross Profit"]
def rev_keys : List String := ["Total Revenue"]

/-- The snapshot fields `calculate_piotroski` reads from `ticker.info`. -/
structure Info where
  returnOnAssets : Option PyCell
  deriving Repr

namespace Analyzer

/-- Guard `has_multi_year` of `calculate_piotroski`: both statements present,
non-empty, with at least two period columns. -/
def has_multi_year (finO bsO : Option Stmt) : Bool :=
  match finO, bsO with
  | some fin, some bs =>
    !fin.isEmpty && decide (2 ≤ fin.ncols) && !bs.isEmpty && decide (2 ≤ bs.ncols)
  | _, _ => false

/-- Python `all(v is not None and v > 0 for v in vs)` with Python's short-circuit
evaluation; the comparison may raise on a non-numeric value. -/
def allPos : List (Option PyCell) → Except Unit Bool
  | [] => .ok true
  | none :: _ => .ok false
  | some v :: rest => do
    let b ← pyGt v (.num 0)
    if b then allPos rest else pure false

/-- Comparison `(a / b) > (c / d)` as Python evaluates it. -/
def ratioGt (a b c d : PyCell) : Except Unit Bool := do
  let r1 ← pyDiv a b
  let r2 ← pyDiv c d
  pyGt r1 r2

/-- Piotroski test 1: snapshot ROA strictly positive. -/
def pio_test1 (roa : Option PyCell) : Except Unit Bool :=
  match roa with
  | none => .ok false
  | some v => if v.isna then .ok false else pyGt v (.num 0)

/-- Piotroski test 2: operating cash flow strictly positive. -/
def pio_test2 (cf : Option Stmt) : Except Unit Bool := do
  let ocf ← get_stmt_value cf ocf_keys 0
  match ocf with
  | some v => pyGt v (.num 0)
  | none => pure false

/-- Piotroski test 3: ROA (net income over total assets) improving, with all
four inputs present and strictly positive. -/
def pio_test3 (hm : Bool) (fin bs : Option Stmt) : Except Unit Bool :=
  if hm then do
    let nc ← get_stmt_value fin ni_keys 0
    let np ← get_stmt_value fin ni_keys 1
    let tc ← get_stmt_value bs ta_keys 0
    let tp ← get_stmt_value bs ta_keys 1
    let pos ← allPos [nc, tc, np, tp]
    if pos then
      match nc, tc, np, tp with
      | some a, some b, some c, some d => ratioGt a b c d
      | _, _, _, _ => pure false
    else pure false
  else .ok false

/-- Piotroski test 4: operating cash flow above net income. -/
def pio_test4 (fin cf : Option Stmt) : Except Unit Bool := do
  let ocf ← get_stmt_value cf ocf_keys 0
  let ni ← get_stmt_value fin ni_keys 0
  match ocf, ni with
  | some o, some n => pyGt o n
  | _, _ => pure false

/-- Piotroski test 5: long-term debt not increasing. -/
def pio_test5 (hm : Bool) (bs : Option Stmt) : Except Unit Bool :=
  if hm then do
    let dc ← get_stmt_value bs debt_keys 0
    let dp ← get_stmt_value bs debt_keys 1
    match dc, dp with
    | some a, some b => pyLe a b
    | _, _ => pure false
  else .ok false

/-- Piotroski test 6: current ratio improving, all four inputs positive. -/
def pio_test6 (hm : Bool) (bs : Option Stmt) : Except Unit Bool :=
  if hm then do
    let cac ← get_stmt_value bs ca_keys 0
    let cap ← get_stmt_value bs ca_keys 1
    let clc ← get_stmt_value bs cl_keys 0
    let clp ← get_stmt_value bs cl_keys 1
    let pos ← allPos [cac, clc, cap, clp]
    if pos then
      match cac, clc, cap, clp with
      | some a, some b, some c, some d => ratioGt a b c d
      | _, _, _, _ => pure false
    else pure false
  else .ok false

/-- Piotroski test 7: share count not increasing. -/
def pio_test7 (hm : Bool) (bs : Option Stmt) : Except Unit Bool :=
  if hm then do
    let sc ← get_stmt_value bs sh_keys 0
    let sp ← get_stmt_value bs sh_keys 1
    match sc, sp with
    | some a, some b => pyLe a b
    | _, _ => pure false
  else .ok false

/-- Piotroski test 8: gross margin improving, all four inputs positive. -/
def pio_test8 (hm : Bool) (fin : Option Stmt) : Except Unit Bool :=
  if hm then do
    let gc ← get_stmt_value fin gp_keys 0
    let gp ← get_stmt_value fin gp_keys 1
    let rc ← get_stmt_value fin rev_keys 0
    let rp ← get_stmt_value fin rev_keys 1
    let pos ← allPos [gc, rc, gp, rp]
    if pos then
      match gc, rc, gp, rp with
      | some a, some b, some c, some d => ratioGt a b c d
      | _, _, _, _ => pure false
    else pure false
  else .ok false

/-- Piotroski test 9: asset turnover improving, all four inputs positive. -/
def pio_test9 (hm : Bool) (fin bs : Option Stmt) : Except Unit Bool :=
  if hm then do
    let rc ← get_stmt_value fin rev_keys 0
    let rp ← get_stmt_value fin rev_keys 1
    let tc ← get_stmt_value bs ta_keys 0
    let tp ← get_stmt_value bs ta_keys 1
    let pos ← allPos [rc, tc, rp, tp]
    if pos then
      match rc, tc, rp, tp with
      | some a, some b, some c, some d => ratioGt a b c d
      | _, _, _, _ => pure false
    else pure false
  else .ok false

/-- The nine sub-tests in the order the source evaluates them (each entry is
the whole straight-line region belonging to that test, including its own
lookups). -/
def piotroski_tests (info : Info) (finO bsO cfO : Option Stmt) :
    List (Except Unit Bool) :=
  let hm := has_multi_year finO bsO
  [pio_test1 info.returnOnAssets,
   pio_test2 cfO,
   pio_test3 hm finO bsO,
   pio_test4 finO cfO,
   pio_test5 hm bsO,
   pio_test6 hm bsO,
   pio_test7 hm bsO,
   pio_test8 hm finO,
   pio_test9 hm finO bsO]

/-- The single `try`/`except` of `calculate_piotroski` around the whole
sequence of tests: passing tests add one point each; the first exception
stops everything and the partial score accumulated so far is returned. -/
def piotroski_run : List (Except Unit Bool) → ℕ
  | [] => 0
  | .error _ :: _ => 0
  | .ok b :: rest => (if b then 1 else 0) + piotroski_run rest

/-- Function `calculate_piotroski` of `analyzer.py` (lines 187-299); an exception in
the statement fetch itself yields score 0. -/
def calculate_piotroski (stmts : Except Unit (Option Stmt × Option Stmt × Option Stmt))
    (info : Info) : ℕ :=
  match stmts with
  | .error _ => 0
  | .ok (finO, bsO, cfO) => piotroski_run (piotroski_tests info finO bsO cfO)

end Analyzer

/-- A sub-test outcome that resolved (did not raise). -/
def testResolved : Except Unit Bool → Bool
  | .ok _ => true
  | .error _ => false

/-- A sub-test outcome that resolved and passed. -/
def testPassed : Except Unit Bool → Bool
  | .ok true => true
  | _ => false

-- ---------------------------------------------------------------------------
-- Earnings yield (`analyzer.py` lines 346-350)
-- ---------------------------------------------------------------------------

namespace Analyzer

/-- The earnings-yield assignment of `fetch_ticker_data`:
`ebitda / ev if ebitda and ev and ev > 0 else None`, where `ebitda` and `ev`
are already sanitized by `safe` (so they are `None` or finite). Note the
Python truthiness test: a present but zero EBITDA fails `if ebitda`. -/
def earnings_yield (ebitda ev : Option ℚ) : Option ℚ :=
  match ebitda, ev with
  | some b, some v => if b ≠ 0 ∧ v ≠ 0 ∧ 0 < v then some (b / v) else none
  | _, _ => none

end Analyzer

-- ---------------------------------------------------------------------------
-- Cross-sectional ranking (`analyzer.py` lines 441-444)
-- ---------------------------------------------------------------------------

/-- pandas `Series.rank` with the default `method='average'`: the rank of an
element is the count of elements ranked strictly ahead of it, plus the
average position within its tie group. `beats y x` means `y` is ordered
strictly ahead of `x`; elements tie when they are equal. -/
def rankSeries {α : Type} [DecidableEq α] (beats : α → α → Bool) (xs : List α) :
    List ℚ :=
  xs.map fun x =>
    ((xs.countP fun y => beats y x : ℕ) : ℚ) +
      (((xs.countP fun y => decide (y = x) : ℕ) : ℚ) + 1) / 2

/-- Ordering for `rank(ascending=False, na_option="bottom")`: larger values
first, missing values after every present value, NaNs tie among themselves. -/
def descBeats : Option ℚ → Option ℚ → Bool
  | some b, some a => decide (a < b)
  | some _, none => true
  | none, _ => false

/-- Ordering for `rank(ascending=True)` on a complete series. -/
def ascBeats : ℚ → ℚ → Bool := fun y x => decide (y < x)

/-- Series `df[col].rank(ascending=False, na_option="bottom")`. -/
def rankDescNaBottom (xs : List (Option ℚ)) : List ℚ := rankSeries descBeats xs

/-- Series `series.rank(ascending=True)`. -/
def rankAscQ (xs : List ℚ) : List ℚ := rankSeries ascBeats xs

namespace Analyzer

/-- Series `roic_rank + ey_rank` of `calculate_rankings` (lines 442-443). -/
def mf_combined (roic ey : List (Option ℚ)) : List ℚ :=
  List.zipWith (· + ·) (rankDescNaBottom roic) (rankDescNaBottom ey)

/-- Series `(roic_rank + ey_rank).rank(ascending=True).astype(int)` (line 444);
ranks are at least 1 so the `int` cast is the floor. -/
def magic_formula_rank (roic ey : List (Option ℚ)) : List ℤ :=
  (rankAscQ (mf_combined roic ey)).map Rat.floor

end Analyzer

-- ---------------------------------------------------------------------------
-- Recent-window CAGR (`rule1_analyzer.py` lines 517-547)
-- ---------------------------------------------------------------------------

/-- One row of `annual_rows` as built by `process_ticker`. -/
structure AnnualRow where
  fiscal_year : ℤ
  roic_pct : Option ℝ
  book_value_per_share : Option ℝ
  earnings_per_share : Option ℝ
  revenue_mil : Option ℝ
  fcf_mil : Option ℝ
  avg_share_price : Option ℝ
  avg_pe : Option ℝ

/-- The trailing-twelve-month values returned by `extract_ttm_values`. -/
structure TtmValues where
  roic_ttm : Option ℝ
  bvps_ttm : Option ℝ
  eps_ttm : Option ℝ
  revenue_ttm_mil : Option ℝ
  fcf_ttm_mil : Option ℝ
  price_current : Option ℝ
  pe_ttm : Option ℝ

namespace Rule1

/-- The `(annual_key, ttm_key)` pairs of `cagr_map` (lines 528-536),
projected to the accessors the recent-window CAGR uses. -/
def cagr_map : List ((AnnualRow → Option ℝ) × (TtmValues → Option ℝ)) :=
  [(AnnualRow.roic_pct, TtmValues.roic_ttm),
   (AnnualRow.book_value_per_share, TtmValues.bvps_ttm),
   (AnnualRow.earnings_per_share, TtmValues.eps_ttm),
   (AnnualRow.revenue_mil, TtmValues.revenue_ttm_mil),
   (AnnualRow.fcf_mil, TtmValues.fcf_ttm_mil),
   (AnnualRow.avg_share_price, TtmValues.price_current),
   (AnnualRow.avg_pe, TtmValues.pe_ttm)]

/-- Row `annual_rows[-2] if len(annual_rows) >= 2 else {}` (line 522); the empty
dict is modelled as `none`. -/
def second_to_last (rows : List AnnualRow) : Option AnnualRow :=
  if 2 ≤ rows.length then rows[rows.length - 2]? else none

/-- Value `years_recent` (lines 523-525): current calendar year minus the
second-to-last fiscal year (defaulting to the current year when there is no
second-to-last row), set to `None` when not positive. -/
def years_recent (rows : List AnnualRow) (today_year : ℤ) : Option ℤ :=
  let fy : ℤ :=
    match second_to_last rows with
    | some r => r.fiscal_year
    | none => today_year
  if today_year - fy ≤ 0 then none else some (today_year - fy)

/-- The recent-window CAGR entry of `summary` (lines 545-547):
`calculate_cagr(second_to_last.get(annual_key), ttm.get(ttm_key), years_recent)`. -/
noncomputable def recent_cagr (rows : List AnnualRow) (today_year : ℤ)
    (annual_key : AnnualRow → Option ℝ) (ttm_val : Option ℝ) : Option ℝ :=
  calculate_cagr ((second_to_last rows).bind annual_key) ttm_val
    ((years_recent rows today_year).map fun n => (n : ℝ))

end Rule1

-- ---------------------------------------------------------------------------
-- Upsert persistence (`analyzer.py` lines 387-416, `rule1_analyzer.py` 586-617)
-- ---------------------------------------------------------------------------

/-- The metric columns of `upsert_metrics` (`analyzer.py` lines 391-399). -/
def metrics_cols : List String :=
  ["price", "market_cap", "enterprise_value",
   "trailing_pe", "forward_pe", "price_to_book", "ev_to_ebitda",
   "earnings_yield", "fcf_yield",
   "roic", "roe", "roa", "gross_margin", "operating_margin", "net_margin",
   "debt_to_equity", "current_ratio",
   "revenue_growth", "earnings_growth",
   "piotroski_score"]

/-- The metric columns of `upsert_summary` (`rule1_analyzer.py` lines 589-599). -/
def summary_cols : List String :=
  ["years_of_data",
   "roic_cagr_full", "bvps_cagr_full", "eps_cagr_full",
   "revenue_cagr_full", "fcf_cagr_full", "price_cagr_full", "pe_cagr_full",
   "roic_cagr_recent", "bvps_cagr_recent", "eps_cagr_recent",
   "revenue_cagr_recent", "fcf_cagr_recent", "price_cagr_recent", "pe_cagr_recent",
   "roic_ttm", "bvps_ttm", "eps_ttm", "revenue_ttm_mil",
   "fcf_ttm_mil", "price_current", "pe_ttm",
   "roa_pct", "roe_pct", "dividends_ttm", "dividend_yield_pct",
   "total_liabilities", "debt_to_equity", "current_ratio", "quick_ratio"]

/-- A persisted row: key `(ticker, calc_date)`, the metric column values in
the order of the column list, and the `updated_at` timestamp. -/
abbrev UpsertRow := (String × ℤ) × List (Option ℚ) × ℤ

/-- The `INSERT ... ON CONFLICT (ticker, calc_date) DO UPDATE SET` statement
shared by `upsert_metrics` and `upsert_summary`: replace the row with the
key if present (every metric column and `updated_at = NOW()`), else append a
new row. `now` is the transaction timestamp. -/
def upsertRow (k : String × ℤ) (d : List (Option ℚ)) (now : ℤ) :
    List UpsertRow → List UpsertRow
  | [] => [(k, d, now)]
  | r :: rest => if r.1 = k then (k, d, now) :: rest else r :: upsertRow k d now rest

/-- Read back the persisted record (metric values and `updated_at`) for a key. -/
def lookupKey (k : String × ℤ) : List UpsertRow → Option (List (Option ℚ) × ℤ)
  | [] => none
  | r :: rest => if r.1 = k then some r.2 else lookupKey k rest

-- ---------------------------------------------------------------------------
-- Dividends TTM fallback (`rule1_analyzer.py` lines 391-402)
-- ---------------------------------------------------------------------------

namespace Rule1

/-- Sum `divs[divs.index >= one_year_ago].sum()`: the sum of dividend events at
or after the cutoff time (an empty selection sums to 0). -/
def ttm_div_sum (events : List (ℤ × ℚ)) (cutoff : ℤ) : ℚ :=
  ((events.filter fun p => decide (cutoff ≤ p.1)).map Prod.snd).sum

/-- The `dividends_ttm` computation of `extract_snapshot` (lines 391-402):
prefer `safe(info.get("dividendRate"))`; when that is `None`, sum the last
twelve months of dividend events, treating a zero sum as `None`; any
exception inside the fallback `try` (including a failed `ticker_obj.dividends`
fetch, modelled by the `Except` input) leaves the value `None`. -/
def dividends_ttm_calc (rate : Option PyCell)
    (divs : Except Unit (Option (List (ℤ × ℚ)))) (cutoff : ℤ) :
    Except Unit (Option ℚ) := do
  let r ← safe rate
  match r with
  | some v => pure (some v)
  | none =>
    match divs with
    | .error _ => pure none
    | .ok none => pure none
    | .ok (some events) =>
      if events.isEmpty then pure none
      else
        let s := ttm_div_sum events cutoff
        if s = 0 then pure none else pure (some s)

end Rule1

-- ---------------------------------------------------------------------------
-- Concrete inputs used by counterexamples and witnesses
-- ---------------------------------------------------------------------------

/-- A cash-flow statement with a positive operating cash flow. -/
def cf_ex : Stmt := ⟨1, [("Operating Cash Flow", [PyCell.num 100])]⟩

/-- A snapshot whose ROA field holds a non-numeric object, so comparing it
with `0` raises `TypeError`. -/
def info_ex : Info := ⟨some PyCell.obj⟩

/-- A statement table whose only stored value is `+inf`. -/
def inf_stmt : Stmt := ⟨1, [("EBIT", [PyCell.inf])]⟩

/-- A table whose first candidate row holds NaN and whose second holds 5. -/
def nan_stmt : Stmt := ⟨1, [("A", [PyCell.nan]), ("B", [PyCell.num 5])]⟩

/-- Income statement for the ROIC witness: EBIT of 10. -/
def fin_ex : Stmt := ⟨1, [("EBIT", [PyCell.num 10])]⟩

/-- Balance sheet for the ROIC witness: assets 100, current liabilities 20,
cash 30, so invested capital is 50. -/
def bs_ex : Stmt :=
  ⟨1, [("Total Assets", [PyCell.num 100]),
       ("Current Liabilities", [PyCell.num 20]),
       ("Cash And Cash Equivalents", [PyCell.num 30])]⟩

/-- Annual record for fiscal year 2023 with EPS 4. -/
def r2023 : AnnualRow := ⟨2023, none, none, some 4, none, none, none, none⟩

/-- Annual record for fiscal year 2024 with EPS 5. -/
def r2024 : AnnualRow := ⟨2024, none, none, some 5, none, none, none, none⟩

/-- A trailing-twelve-month snapshot with every field absent. -/
def ttm_none : TtmValues := ⟨none, none, none, none, none, none, none⟩

-- ---------------------------------------------------------------------------
-- Helper lemmas
-- ---------------------------------------------------------------------------

theorem except_bind_ok {α β : Type} (a : α) (f : α → Except Unit β) :
    bind (Except.ok a) f = f a := rfl

theorem except_bind_error {α β : Type} (u : Unit) (f : α → Except Unit β) :
    bind (Except.error u : Except Unit α) f = Except.error u := rfl

theorem calculate_cagr_none_start (e y : Option ℝ) :
    Rule1.calculate_cagr none e y = none := by
  cases e <;> cases y <;> rfl

theorem calculate_cagr_none_years (s e : Option ℝ) :
    Rule1.calculate_cagr s e none = none := by
  cases s <;> cases e <;> rfl

-- ---------------------------------------------------------------------------
-- C1: calculate_cagr
-- ---------------------------------------------------------------------------

/-- C1: for present, strictly positive `start`, `end` and `years`,
`calculate_cagr` returns `(end/start) ^ (1/years) - 1`; for every other
input combination (an absent operand or a non-positive one) it returns
`None`. The embedding is a total function, which models the source's
guarantee (its `try` around the power) that the call never raises. -/
theorem calculate_cagr_correct : ∀ s e y : Option ℝ,
    (∀ a b c : ℝ, s = some a → e = some b → y = some c → 0 < a → 0 < b → 0 < c →
       Rule1.calculate_cagr s e y = some ((b / a) ^ (1 / c) - 1)) ∧
    ((s = none ∨ e = none ∨ y = none ∨ (∃ a, s = some a ∧ a ≤ 0) ∨
        (∃ b, e = some b ∧ b ≤ 0) ∨ (∃ c, y = some c ∧ c ≤ 0)) →
       Rule1.calculate_cagr s e y = none) := by
  intro s e y
  constructor
  · rintro a b c rfl rfl rfl ha hb hc
    simp only [Rule1.calculate_cagr]
    rw [if_neg (not_le.mpr hc), if_neg]
    simp only [not_or, not_le]
    exact ⟨ha, hb⟩
  · intro h
    rcases h with rfl | rfl | rfl | ⟨a, rfl, ha⟩ | ⟨b, rfl, hb⟩ | ⟨c, rfl, hc⟩
    · exact calculate_cagr_none_start e y
    · cases s <;> cases y <;> rfl
    · cases s <;> cases e <;> rfl
    · cases e with
      | none => cases y <;> rfl
      | some b =>
        cases y with
        | none => rfl
        | some c =>
          simp only [Rule1.calculate_cagr]
          by_cases hy : c ≤ 0
          · rw [if_pos hy]
          · rw [if_neg hy, if_pos (Or.inl ha)]
    · cases s with
      | none => cases y <;> rfl
      | some a =>
        cases y with
        | none => rfl
        | some c =>
          simp only [Rule1.calculate_cagr]
          by_cases hy : c ≤ 0
          · rw [if_pos hy]
          · rw [if_neg hy, if_pos (Or.inr hb)]
    · cases s with
      | none => cases e <;> rfl
      | some a =>
        cases e with
        | none => rfl
        | some b =>
          simp only [Rule1.calculate_cagr]
          rw [if_pos hc]

/-- Witness for C1 at concrete inputs: a valid triple and an invalid one. -/
theorem calculate_cagr_correct_witness :
    Rule1.calculate_cagr (some 1) (some 2) (some 1) =
      some (((2 : ℝ) / 1) ^ ((1 : ℝ) / 1) - 1) ∧
    Rule1.calculate_cagr (some (-1)) (some 2) (some 1) = none :=
  ⟨(calculate_cagr_correct (some 1) (some 2) (some 1)).1 1 2 1 rfl rfl rfl
      one_pos two_pos one_pos,
   (calculate_cagr_correct (some (-1)) (some 2) (some 1)).2
      (Or.inr (Or.inr (Or.inr (Or.inl ⟨-1, rfl, by norm_num⟩))))⟩

-- ---------------------------------------------------------------------------
-- C5: yoy_growth
-- ---------------------------------------------------------------------------

/-- C5: `yoy_growth` equals `(current - prior) / |prior|` whenever both
operands are present and the prior is non-zero, and is absent exactly when
`current` is absent, `prior` is absent, or `prior` is exactly 0. In this
exact-arithmetic embedding the result is always a well-defined rational,
never NaN or an infinity. -/
theorem yoy_growth_correct : ∀ current prior : Option ℚ,
    (∀ c p, current = some c → prior = some p → p ≠ 0 →
       Rule1.yoy_growth current prior = some ((c - p) / |p|)) ∧
    (Rule1.yoy_growth current prior = none ↔
       current = none ∨ prior = none ∨ prior = some 0) := by
  intro current prior
  constructor
  · rintro c p rfl rfl hp
    simp [Rule1.yoy_growth, hp]
  · cases current with
    | none => simp [Rule1.yoy_growth]
    | some c =>
      cases prior with
      | none => simp [Rule1.yoy_growth]
      | some p =>
        by_cases hp : p = 0 <;> simp [Rule1.yoy_growth, hp]

/-- Witness for C5: the spec's scenario, growth from 10 to 12 is 0.20. -/
theorem yoy_growth_correct_witness :
    Rule1.yoy_growth (some 12) (some 10) = some (((12 : ℚ) - 10) / |(10 : ℚ)|) ∧
    ((12 : ℚ) - 10) / |(10 : ℚ)| = 1 / 5 :=
  ⟨(yoy_growth_correct (some 12) (some 10)).1 12 10 rfl rfl (by norm_num),
   by norm_num⟩

-- ---------------------------------------------------------------------------
-- C6: earnings yield
-- ---------------------------------------------------------------------------

/-- C6 counterexample: with EBITDA present and equal to 0 and enterprise
value 5000 > 0, the source's Python truthiness test `if ebitda` fails, so
`earnings_yield` is absent although the claim requires `0 / 5000 = 0`. -/
theorem earnings_yield_zero_counterexample :
    Analyzer.earnings_yield (some 0) (some 5000) = none ∧
    ¬(∀ b v : ℚ, 0 < v → Analyzer.earnings_yield (some b) (some v) = some (b / v)) := by
  constructor
  · rfl
  · intro h
    have h0 := h 0 5000 (by norm_num)
    simp [Analyzer.earnings_yield] at h0

/-- C6 amended: `earnings_yield = EBITDA / EV` when both are present,
EBITDA is non-zero and EV is strictly positive; absent exactly when an
operand is absent, EBITDA equals 0, or EV is non-positive. Includes the
spec's scenario 500 / 5000 = 0.10 and the EV = 0 case. -/
theorem earnings_yield_amended : ∀ eb ev : Option ℚ,
    (∀ b v, eb = some b → ev = some v → b ≠ 0 → 0 < v →
       Analyzer.earnings_yield eb ev = some (b / v)) ∧
    (Analyzer.earnings_yield eb ev = none ↔
       eb = none ∨ ev = none ∨ eb = some 0 ∨ ∃ v, ev = some v ∧ v ≤ 0) ∧
    Analyzer.earnings_yield (some 500) (some 5000) = some (1 / 10) ∧
    Analyzer.earnings_yield (some 500) (some 0) = none := by
  intro eb ev
  refine ⟨?_, ?_, by norm_num [Analyzer.earnings_yield], rfl⟩
  · rintro b v rfl rfl hb hv
    simp [Analyzer.earnings_yield, hb, ne_of_gt hv, hv]
  · cases eb with
    | none => simp [Analyzer.earnings_yield]
    | some b =>
      cases ev with
      | none => simp [Analyzer.earnings_yield]
      | some v =>
        by_cases hb : b = 0
        · subst hb
          simp [Analyzer.earnings_yield]
        · by_cases hv : 0 < v
          · simp [Analyzer.earnings_yield, hb, ne_of_gt hv, hv, not_le.mpr hv]
          · have hvle : v ≤ 0 := not_lt.mp hv
            simp [Analyzer.earnings_yield, hb, hv, hvle]


/-- Witness for C6's amended theorem at EBITDA 3, EV 4. -/
theorem earnings_yield_amended_witness :
    Analyzer.earnings_yield (some 3) (some 4) = some (3 / 4) :=
  (earnings_yield_amended (some 3) (some 4)).1 3 4 rfl rfl (by norm_num) (by norm_num)

-- ---------------------------------------------------------------------------
-- C4: upsert idempotence
-- ---------------------------------------------------------------------------

theorem lookup_upsert (k : String × ℤ) (d : List (Option ℚ)) (t : ℤ) :
    ∀ tbl, lookupKey k (upsertRow k d t tbl) = some (d, t) := by
  intro tbl
  induction tbl with
  | nil => simp [upsertRow, lookupKey]
  | cons r rest ih =>
    by_cases h : r.1 = k
    · simp [upsertRow, lookupKey, h]
    · simp [upsertRow, lookupKey, h, ih]

/-- C4 counterexample: re-running the upsert for the same key with the same
metric values at a later transaction time yields a persisted record that is
not byte-identical to the first run's record, because the `updated_at`
column is stamped with `NOW()` at each run. -/
theorem upsert_rerun_counterexample :
    lookupKey ("AAPL", 0)
        (upsertRow ("AAPL", 0) [some 1] 2 (upsertRow ("AAPL", 0) [some 1] 1 [])) ≠
      lookupKey ("AAPL", 0) (upsertRow ("AAPL", 0) [some 1] 1 []) := by
  decide

/-- C4 amended: re-running the upsert with unchanged values is idempotent on
every metric column — after the second run the stored record holds exactly
the same column values `d` as after the first run — while the `updated_at`
timestamp is refreshed to each run's time, so the full records coincide
only when the two runs share a timestamp. -/
theorem upsert_rerun_amended : ∀ (tbl : List UpsertRow) (k : String × ℤ)
    (d : List (Option ℚ)) (t1 t2 : ℤ),
    lookupKey k (upsertRow k d t2 (upsertRow k d t1 tbl)) = some (d, t2) ∧
    lookupKey k (upsertRow k d t1 tbl) = some (d, t1) ∧
    (lookupKey k (upsertRow k d t2 (upsertRow k d t1 tbl))).map Prod.fst =
      (lookupKey k (upsertRow k d t1 tbl)).map Prod.fst := by
  intro tbl k d t1 t2
  refine ⟨lookup_upsert k d t2 _, lookup_upsert k d t1 tbl, ?_⟩
  rw [lookup_upsert k d t2, lookup_upsert k d t1]
  rfl

-- ---------------------------------------------------------------------------
-- C2: Piotroski error isolation
-- ---------------------------------------------------------------------------

/-- C2 counterexample: with a snapshot ROA holding a non-numeric object,
sub-test 1 raises; the single `try`/`except` wrapping all nine tests then
returns immediately, so the calculator yields score 0 even though sub-test 2
(positive operating cash flow) resolves and passes on its own inputs. The
claim requires that resolving sub-test to still contribute its point. -/
theorem piotroski_abort_counterexample :
    Analyzer.calculate_piotroski (.ok (none, none, some cf_ex)) info_ex = 0 ∧
    Analyzer.pio_test2 (some cf_ex) = .ok true := by
  exact ⟨rfl, rfl⟩

/-- C2 amended: the Piotroski calculator never propagates a resolution
error; it returns the number of passing sub-tests evaluated strictly before
the first erroring sub-test (remaining sub-tests are skipped, even when
their own inputs would resolve). -/
theorem piotroski_partial_score :
    (∀ ts : List (Except Unit Bool),
       Analyzer.piotroski_run ts = (ts.takeWhile testResolved).countP testPassed) ∧
    (∀ (info : Info) (finO bsO cfO : Option Stmt),
       Analyzer.calculate_piotroski (.ok (finO, bsO, cfO)) info =
         ((Analyzer.piotroski_tests info finO bsO cfO).takeWhile
             testResolved).countP testPassed) := by
  have main : ∀ ts : List (Except Unit Bool),
      Analyzer.piotroski_run ts = (ts.takeWhile testResolved).countP testPassed := by
    intro ts
    induction ts with
    | nil => rfl
    | cons t rest ih =>
      cases t with
      | error u => rfl
      | ok b =>
        have hres : testResolved (.ok b) = true := rfl
        rw [List.takeWhile_cons, hres]
        simp only [if_true, List.countP_cons]
        rw [Analyzer.piotroski_run, ih]
        cases b
        · simp [testPassed]
        · simp [testPassed]
          omega
  exact ⟨main, fun info finO bsO cfO => main _⟩

-- ---------------------------------------------------------------------------
-- C3: statement lookup
-- ---------------------------------------------------------------------------

/-- C3 counterexample: a stored `+inf` is returned by both `get_stmt_value`
implementations (`pd.isna` is false on infinities and neither function
checks `isinf`), while the claim requires absent for ±Infinity. -/
theorem get_stmt_value_inf_counterexample :
    Analyzer.get_stmt_value (some inf_stmt) ["EBIT"] 0 = .ok (some PyCell.inf) ∧
    Rule1.get_stmt_value (some inf_stmt) ["EBIT"] 0 = .ok (some PyCell.inf) := by
  exact ⟨rfl, rfl⟩

theorem rule1_go_eq_spec (t : Stmt) (col : ℕ) (hno : t.noObj) :
    ∀ keys, Rule1.get_stmt_value_go t col keys = .ok (lookup_spec_go t col keys) := by
  intro keys
  induction keys with
  | nil => rfl
  | cons k ks ih =>
    cases hr : t.findRow k with
    | none =>
      simp only [Rule1.get_stmt_value_go, lookup_spec_go, hr]
      exact ih
    | some row =>
      cases hc : row[col]? with
      | none =>
        simp only [Rule1.get_stmt_value_go, lookup_spec_go, hr, hc]
        exact ih
      | some v =>
        by_cases hn : v.isna
        · simp only [Rule1.get_stmt_value_go, lookup_spec_go, hr, hc, hn, if_true]
          exact ih
        · have hrow : ∃ r, t.rows.find? (fun r => decide (r.1 = k)) = some r ∧
              r.2 = row := Option.map_eq_some'.mp hr
          obtain ⟨r, hfind, hsnd⟩ := hrow
          have hmem : r ∈ t.rows := List.mem_of_find?_eq_some hfind
          have hvmem : v ∈ row := List.getElem?_mem hc
          have hvobj : v ≠ PyCell.obj := hno r hmem v (hsnd ▸ hvmem)
          have hfl : v.toFloat = .ok v := by
            cases v <;> first | rfl | exact absurd rfl hvobj
          simp only [Rule1.get_stmt_value_go, lookup_spec_go, hr, hc, hn, if_false,
            hfl, Except.map]
          rfl

theorem analyzer_go_eq_spec (t : Stmt) (col : ℕ) (hno : t.noObj)
    (hcr : t.colInRange col) :
    ∀ keys, Analyzer.get_stmt_value_go t col keys = .ok (lookup_spec_go t col keys) := by
  intro keys
  induction keys with
  | nil => rfl
  | cons k ks ih =>
    cases hr : t.findRow k with
    | none =>
      simp only [Analyzer.get_stmt_value_go, lookup_spec_go, hr]
      exact ih
    | some row =>
      have hrow : ∃ r, t.rows.find? (fun r => decide (r.1 = k)) = some r ∧
          r.2 = row := Option.map_eq_some'.mp hr
      obtain ⟨r, hfind, hsnd⟩ := hrow
      have hmem : r ∈ t.rows := List.mem_of_find?_eq_some hfind
      cases hc : row[col]? with
      | none =>
        have hlen : col < row.length := hsnd ▸ hcr r hmem
        have : row.length ≤ col := List.getElem?_eq_none_iff.mp hc
        omega
      | some v =>
        by_cases hn : v.isna
        · simp only [Analyzer.get_stmt_value_go, lookup_spec_go, hr, hc, hn, if_true]
          exact ih
        · have hvmem : v ∈ row := List.getElem?_mem hc
          have hvobj : v ≠ PyCell.obj := hno r hmem v (hsnd ▸ hvmem)
          have hfl : v.toFloat = .ok v := by
            cases v <;> first | rfl | exact absurd rfl hvobj
          simp only [Analyzer.get_stmt_value_go, lookup_spec_go, hr, hc, hn, if_false,
            hfl, Except.map]
          rfl

/-- C3 amended: both `get_stmt_value` implementations realise the priority
lookup `lookup_spec` (absent table or empty table gives absent; candidate
names are tried in order; a NaN value makes the lookup move to the next
candidate; the first present non-NaN value — including a stored ±Infinity,
which is returned rather than treated as absent — is the result, coerced
through `float`), on tables without non-numeric cells; the analyzer variant
additionally needs the requested column in range, since its `IndexError` is
uncaught while the rule1 variant skips such candidates. -/
theorem get_stmt_value_amended : ∀ (df : Option Stmt) (keys : List String) (col : ℕ),
    (Rule1.get_stmt_value none keys col = .ok none ∧
     Analyzer.get_stmt_value none keys col = .ok none) ∧
    (∀ t, df = some t → t.noObj →
       Rule1.get_stmt_value df keys col = .ok (lookup_spec df keys col)) ∧
    (∀ t, df = some t → t.noObj → t.colInRange col →
       Analyzer.get_stmt_value df keys col = .ok (lookup_spec df keys col)) := by
  intro df keys col
  refine ⟨⟨rfl, rfl⟩, ?_, ?_⟩
  · rintro t rfl hno
    rw [Rule1.get_stmt_value, lookup_spec]
    by_cases he : t.isEmpty
    · simp only [he, if_true]
    · simp only [he, if_false]
      exact rule1_go_eq_spec t col hno keys
  · rintro t rfl hno hcr
    rw [Analyzer.get_stmt_value, lookup_spec]
    by_cases he : t.isEmpty
    · simp only [he, if_true]
    · simp only [he, if_false]
      exact analyzer_go_eq_spec t col hno hcr keys

/-- Witness for C3's amended theorem: the first candidate holds NaN, the
second holds 5, and both lookups agree with the spec-side resolver. -/
theorem get_stmt_value_amended_witness :
    Rule1.get_stmt_value (some nan_stmt) ["A", "B"] 0 =
      .ok (lookup_spec (some nan_stmt) ["A", "B"] 0) ∧
    Analyzer.get_stmt_value (some nan_stmt) ["A", "B"] 0 =
      .ok (lookup_spec (some nan_stmt) ["A", "B"] 0) :=
  ⟨(get_stmt_value_amended (some nan_stmt) ["A", "B"] 0).2.1 nan_stmt rfl (by decide),
   (get_stmt_value_amended (some nan_stmt) ["A", "B"] 0).2.2 nan_stmt rfl (by decide)
     (by decide)⟩

-- ---------------------------------------------------------------------------
-- C7: calculate_roic
-- ---------------------------------------------------------------------------

/-- C7: point-in-time ROIC is `EBIT / (TotalAssets - CurrentLiabilities -
Cash)` from the latest statement period (column 0), Cash defaulting to 0
when absent, whenever both statements are present and non-empty, EBIT,
TotalAssets and CurrentLiabilities all resolve, and invested capital is
strictly positive; whenever the statement attempt fails for any reason
(guard fall-through `.ok none` or an exception `.error ()`), the result is
the sanitized snapshot ROE, and the result is absent exactly when the
statement attempt failed and that sanitized ROE is absent. -/
theorem calculate_roic_correct : ∀ (stmts : Except Unit (Option Stmt × Option Stmt))
    (roe : Option PyCell),
    (∀ (fin bs : Stmt) (e a l : ℚ) (cashO : Option PyCell) (cq : ℚ),
       stmts = .ok (some fin, some bs) →
       fin.isEmpty = false → bs.isEmpty = false →
       Analyzer.get_stmt_value (some fin) ebit_keys 0 = .ok (some (.num e)) →
       Analyzer.get_stmt_value (some bs) ta_keys 0 = .ok (some (.num a)) →
       Analyzer.get_stmt_value (some bs) cl_keys 0 = .ok (some (.num l)) →
       Analyzer.get_stmt_value (some bs) cash_keys 0 = .ok cashO →
       pyOr0 cashO = .num cq →
       0 < a - l - cq →
       Analyzer.calculate_roic stmts roe = .ok (some (.num (e / (a - l - cq))))) ∧
    ((Analyzer.roic_attempt stmts = .ok none ∨ Analyzer.roic_attempt stmts = .error ()) →
       Analyzer.calculate_roic stmts roe = (safe roe).map fun o => o.map PyCell.num) ∧
    (Analyzer.calculate_roic stmts roe = .ok none ↔
       (Analyzer.roic_attempt stmts = .ok none ∨ Analyzer.roic_attempt stmts = .error ()) ∧
         safe roe = .ok none) := by
  intro stmts roe
  refine ⟨?_, ?_, ?_⟩
  · rintro fin bs e a l cashO cq rfl hfe hbe he ha hl hcash hor hpos
    have hne : a - l - cq ≠ 0 := ne_of_gt hpos
    have hattempt : Analyzer.roic_attempt (.ok (some fin, some bs)) =
        .ok (some (.num (e / (a - l - cq)))) := by
      simp only [Analyzer.roic_attempt, Analyzer.roic_try, hfe, hbe, Bool.or_false,
        Bool.false_eq_true, if_false, he, ha, hl, hcash, except_bind_ok, hor,
        pySub, pyGt, pyDiv, sub_sub]
      have hlt : l + cq < a := by linarith
      have hne2 : a - (l + cq) ≠ 0 := by
        rw [← sub_sub]
        exact hne
      simp [hlt, hne2, except_bind_ok, pure, Except.pure]
    simp only [Analyzer.calculate_roic, hattempt]
  · intro h
    rcases h with h | h <;> simp only [Analyzer.calculate_roic, h]
  · cases ha : Analyzer.roic_attempt stmts with
    | ok o =>
      cases o with
      | some r => simp [Analyzer.calculate_roic, ha]
      | none =>
        cases hs : safe roe with
        | ok so =>
          cases so with
          | none => simp [Analyzer.calculate_roic, ha, hs, Except.map]
          | some q => simp [Analyzer.calculate_roic, ha, hs, Except.map]
        | error u => cases u; simp [Analyzer.calculate_roic, ha, hs, Except.map]
    | error u =>
      cases u
      cases hs : safe roe with
      | ok so =>
        cases so with
        | none => simp [Analyzer.calculate_roic, ha, hs, Except.map]
        | some q => simp [Analyzer.calculate_roic, ha, hs, Except.map]
      | error v => cases v; simp [Analyzer.calculate_roic, ha, hs, Except.map]

/-- Witness for C7: EBIT 10, assets 100, current liabilities 20, cash 30
give invested capital 50 and ROIC 10/50. -/
theorem calculate_roic_correct_witness :
    Analyzer.calculate_roic (.ok (some fin_ex, some bs_ex)) none =
      .ok (some (.num ((10 : ℚ) / (100 - 20 - 30)))) :=
  (calculate_roic_correct (.ok (some fin_ex, some bs_ex)) none).1 fin_ex bs_ex
    10 100 20 (some (.num 30)) 30 rfl rfl rfl rfl rfl rfl rfl rfl (by norm_num)

-- ---------------------------------------------------------------------------
-- C8: Magic Formula ranking
-- ---------------------------------------------------------------------------

theorem countP_eq_one_of_unique {α : Type} (p : α → Bool) :
    ∀ (l : List α) (i : ℕ) (hi : i < l.length), p l[i] = true →
      (∀ j (hj : j < l.length), j ≠ i → p l[j] = false) →
      l.countP p = 1 := by
  intro l
  induction l with
  | nil => intro i hi; simp at hi
  | cons a t ih =>
    intro i hi hp hq
    cases i with
    | zero =>
      have hpa : p a = true := hp
      have ht : t.countP p = 0 := by
        rw [List.countP_eq_zero]
        intro b hb
        obtain ⟨j, hj, rfl⟩ := List.mem_iff_getElem.mp hb
        have hx := hq (j + 1) (by simpa using Nat.succ_lt_succ hj) (by omega)
        simpa using hx
      rw [List.countP_cons, ht, hpa]
      simp
    | succ k =>
      have hk : k < t.length := by simpa using hi
      have hpa : p a = false := hq 0 (by simp) (by omega)
      have hrec : t.countP p = 1 := by
        refine ih k hk ?_ ?_
        · exact hp
        · intro j hj hne
          have hx := hq (j + 1) (by simpa using Nat.succ_lt_succ hj)
            (fun h => hne (by omega))
          simpa using hx
      rw [List.countP_cons, hrec, hpa]
      simp

theorem rankAscQ_min (xs : List ℚ) (i : ℕ) (hi : i < xs.length)
    (hmin : ∀ j (hj : j < xs.length), j ≠ i → xs[i] < xs[j]) :
    (rankAscQ xs)[i]? = some 1 := by
  have h0 : (xs.countP fun y => ascBeats y xs[i]) = 0 := by
    rw [List.countP_eq_zero]
    intro b hb
    obtain ⟨j, hj, rfl⟩ := List.mem_iff_getElem.mp hb
    by_cases hji : j = i
    · subst hji
      simp [ascBeats]
    · have hlt := hmin j hj hji
      simp only [ascBeats, decide_eq_true_eq]
      exact not_lt.mpr hlt.le
  have h1 : (xs.countP fun y => decide (y = xs[i])) = 1 := by
    refine countP_eq_one_of_unique _ xs i hi (by simp) ?_
    intro j hj hne
    have hlt := hmin j hj hne
    simp only [decide_eq_false_iff_not]
    exact ne_of_gt hlt
  have hmap : rankAscQ xs = xs.map fun x =>
      ((xs.countP fun y => ascBeats y x : ℕ) : ℚ) +
        (((xs.countP fun y => decide (y = x) : ℕ) : ℚ) + 1) / 2 := rfl
  rw [hmap, List.getElem?_map, List.getElem?_eq_getElem hi]
  simp only [Option.map_some']
  rw [h0, h1]
  norm_num

/-- C8: the Magic Formula rank is computed by ranking descending by ROIC and
by earnings yield with missing values sinking to the bottom, summing the two
ranks, and ranking that combined score ascending; a ticker whose combined
score is strictly the smallest receives rank 1, and the cohort with ROIC
ranks [1,2,3] and earnings-yield ranks [3,1,2] has combined sums [4,3,5] and
Magic Formula ranks [2,1,3]. -/
theorem magic_formula_rank_correct :
    (∀ (roic ey : List (Option ℚ)) (sums : List ℚ),
       Analyzer.mf_combined roic ey = sums →
       ∀ (i : ℕ) (hi : i < sums.length),
       (∀ j (hj : j < sums.length), j ≠ i → sums[i] < sums[j]) →
       (Analyzer.magic_formula_rank roic ey)[i]? = some 1) ∧
    Analyzer.magic_formula_rank [some 30, some 20, some 10] [some 1, some 3, some 2] =
      [2, 1, 3] ∧
    Analyzer.mf_combined [some 30, some 20, some 10] [some 1, some 3, some 2] =
      [4, 3, 5] ∧
    rankDescNaBottom [some 30, some 20, some 10] = [1, 2, 3] ∧
    rankDescNaBottom [some 1, some 3, some 2] = [3, 1, 2] := by
  refine ⟨?_, ?_, ?_, ?_, ?_⟩
  · rintro roic ey sums heq i hi hmin
    rw [Analyzer.magic_formula_rank, heq, List.getElem?_map,
      rankAscQ_min sums i hi hmin]
    rfl
  · norm_num [Analyzer.magic_formula_rank, Analyzer.mf_combined, rankAscQ,
      rankDescNaBottom, rankSeries, descBeats, ascBeats,
      List.countP_cons, List.countP_nil]
    exact ⟨rfl, rfl, rfl⟩
  · norm_num [Analyzer.mf_combined, rankDescNaBottom, rankSeries, descBeats,
      List.countP_cons, List.countP_nil]
  · norm_num [rankDescNaBottom, rankSeries, descBeats,
      List.countP_cons, List.countP_nil]
  · norm_num [rankDescNaBottom, rankSeries, descBeats,
      List.countP_cons, List.countP_nil]

/-- Witness for C8: in the spec's cohort the middle ticker has the strictly
smallest combined sum 3 and receives Magic Formula rank 1. -/
theorem magic_formula_rank_correct_witness :
    (Analyzer.magic_formula_rank [some 30, some 20, some 10]
        [some 1, some 3, some 2])[1]? = some 1 :=
  magic_formula_rank_correct.1 [some 30, some 20, some 10] [some 1, some 3, some 2]
    [4, 3, 5] magic_formula_rank_correct.2.2.1 1 (by decide) (by decide)

-- ---------------------------------------------------------------------------
-- C9: recent-window CAGR
-- ---------------------------------------------------------------------------

/-- C9: for every tracked field pair of `cagr_map`, the recent-window CAGR
is `calculate_cagr` applied to start = that field of the second-to-last
annual record, end = the corresponding trailing-twelve-month value, and
yearsElapsed = current calendar year minus the second-to-last fiscal year;
it is absent whenever fewer than two annual records exist, and absent
whenever the elapsed years are not positive. -/
theorem recent_cagr_correct : ∀ (rows : List AnnualRow) (today_year : ℤ)
    (ttm : TtmValues) (ak : AnnualRow → Option ℝ) (tk : TtmValues → Option ℝ),
    (ak, tk) ∈ Rule1.cagr_map →
    ((rows.length < 2 → Rule1.recent_cagr rows today_year ak (tk ttm) = none) ∧
     (∀ r, Rule1.second_to_last rows = some r →
       ((today_year - r.fiscal_year ≤ 0 →
          Rule1.recent_cagr rows today_year ak (tk ttm) = none) ∧
        (0 < today_year - r.fiscal_year →
          Rule1.recent_cagr rows today_year ak (tk ttm) =
            Rule1.calculate_cagr (ak r) (tk ttm)
              (some ((today_year - r.fiscal_year : ℤ) : ℝ)))))) := by
  intro rows today ttm ak tk hmem
  constructor
  · intro hlen
    have hstl : Rule1.second_to_last rows = none := by
      unfold Rule1.second_to_last
      rw [if_neg (by omega)]
    unfold Rule1.recent_cagr
    rw [hstl]
    exact calculate_cagr_none_start _ _
  · intro r hr
    constructor
    · intro hle
      have hy : Rule1.years_recent rows today = none := by
        simp only [Rule1.years_recent, hr]
        rw [if_pos hle]
      unfold Rule1.recent_cagr
      rw [hy]
      exact calculate_cagr_none_years _ _
    · intro hpos
      have hy : Rule1.years_recent rows today = some (today - r.fiscal_year) := by
        simp only [Rule1.years_recent, hr]
        rw [if_neg (by omega)]
      unfold Rule1.recent_cagr
      rw [hr, hy]
      rfl

/-- Witness for C9: two annual rows (2023, 2024), today 2026; the
second-to-last row is the 2023 one and the elapsed years are 3. -/
theorem recent_cagr_correct_witness :
    Rule1.recent_cagr [r2023, r2024] 2026 AnnualRow.earnings_per_share
        (TtmValues.eps_ttm ttm_none) =
      Rule1.calculate_cagr (AnnualRow.earnings_per_share r2023)
        (TtmValues.eps_ttm ttm_none) (some ((2026 - r2023.fiscal_year : ℤ) : ℝ)) :=
  ((recent_cagr_correct [r2023, r2024] 2026 ttm_none AnnualRow.earnings_per_share
      TtmValues.eps_ttm (by simp [Rule1.cagr_map])).2 r2023 rfl).2 (by decide)

-- ---------------------------------------------------------------------------
-- C10: dividends TTM fallback
-- ---------------------------------------------------------------------------

/-- C10: when the provider's `dividendRate` sanitizes to absent and the
trailing-twelve-month sum of dividend events is exactly 0, `dividends_ttm`
is absent rather than 0; consequently any value the fallback path produces
is non-zero. -/
theorem dividends_ttm_fallback : ∀ (rate : Option PyCell)
    (divs : Except Unit (Option (List (ℤ × ℚ)))) (cutoff : ℤ),
    (safe rate = .ok none → ∀ events, divs = .ok (some events) →
       Rule1.ttm_div_sum events cutoff = 0 →
       Rule1.dividends_ttm_calc rate divs cutoff = .ok none) ∧
    (safe rate = .ok none → ∀ v,
       Rule1.dividends_ttm_calc rate divs cutoff = .ok (some v) → v ≠ 0) := by
  intro rate divs cutoff
  constructor
  · rintro hs events rfl hsum
    rw [Rule1.dividends_ttm_calc, hs, except_bind_ok]
    by_cases he : events.isEmpty
    · simp only [he, if_true]
      rfl
    · simp only [he, Bool.false_eq_true, if_false, hsum, if_pos]
      rfl
  · intro hs v hv
    unfold Rule1.dividends_ttm_calc at hv
    rw [hs, except_bind_ok] at hv
    cases divs with
    | error u => simp [pure, Except.pure] at hv
    | ok o =>
      cases o with
      | none => simp [pure, Except.pure] at hv
      | some events =>
        by_cases he : events.isEmpty
        · simp [he, pure, Except.pure] at hv
        · by_cases h0 : Rule1.ttm_div_sum events cutoff = 0
          · simp [he, h0, pure, Except.pure] at hv
          · simp [he, h0, pure, Except.pure] at hv
            intro hz
            exact h0 (hv.trans hz)

/-- Witness for C10: a fallback whose trailing window is empty sums to 0 and
yields absent; a fallback with one in-window event of 2 yields the non-zero
value 2. -/
theorem dividends_ttm_fallback_witness :
    Rule1.dividends_ttm_calc none (.ok (some [((-5 : ℤ), 3)])) 0 = .ok none ∧
    (2 : ℚ) ≠ 0 := by
  constructor
  · exact (dividends_ttm_fallback none (.ok (some [((-5 : ℤ), 3)])) 0).1 rfl
      [((-5 : ℤ), 3)] rfl rfl
  · refine (dividends_ttm_fallback none (.ok (some [((5 : ℤ), 2)])) 0).2 rfl 2 ?_
    simp only [Rule1.dividends_ttm_calc, safe, except_bind_ok]
    norm_num [Rule1.ttm_div_sum, pure, Except.pure]
